import Mathlib

/-!
Shallow embedding of the customer-identity and usage-quota backend of
`gc-bulk-edit-payment` (`src/index.js`, first server revision, lines 1-749).

The MongoDB `customers` collection is modelled as a `List Customer` in
natural (insertion) order.  `findOne` is `List.find?`; `updateOne` updates
the first matching document (`updateFirst`); `insertOne` appends.  Each
HTTP handler becomes a pure function from the store and its request
parameters to the new store paired with its JSON response.
-/

/-- Customer record stored in the `customers` collection (`src/index.js`).
`free_actions_remaining` is `Option` because the field may be absent from a
document (JS `undefined`), in which case handlers fall back to
`FREE_ACTIONS_LIMIT` via `??`. -/
structure Customer where
  customer_id : String
  emails : List String
  subscription_status : Bool
  free_actions_remaining : Option Int
  plan : Option String
  created_at : Option Nat
  last_action_at : Option Nat
deriving DecidableEq

/-- `const FREE_ACTIONS_LIMIT = 50;` (src/index.js line 57). -/
def FREE_ACTIONS_LIMIT : Int := 50

/-- The JS `\s` character class (ECMAScript WhiteSpace and LineTerminator),
written with explicit code points for the non-ASCII members. -/
def isJsSpace (c : Char) : Bool :=
  c = ' ' || c = '\t' || c = '\n' || c = '\r' || c = '\x0b' || c = '\x0c' ||
  c.toNat = 0xA0 || c.toNat = 0x1680 ||
  (0x2000 ≤ c.toNat && c.toNat ≤ 0x200A) ||
  c.toNat = 0x2028 || c.toNat = 0x2029 || c.toNat = 0x202F ||
  c.toNat = 0x205F || c.toNat = 0x3000 || c.toNat = 0xFEFF

/-- One character of the regex class `[^\s@]`. -/
def isEmailAtomChar (c : Char) : Bool :=
  !(isJsSpace c) && c ≠ '@'

/-- Anchored match of `[^\s@]*` followed by the continuation `k`
(backtracking over every split point). -/
def matchAtomStarThen (k : List Char → Bool) : List Char → Bool
  | [] => k []
  | c :: cs => k (c :: cs) || (isEmailAtomChar c && matchAtomStarThen k cs)

/-- Anchored match of `[^\s@]+` followed by the continuation `k`. -/
def matchAtomPlusThen (k : List Char → Bool) (l : List Char) : Bool :=
  match l with
  | [] => false
  | c :: cs => isEmailAtomChar c && matchAtomStarThen k cs

/-- Continuation after the dot: end of input. -/
def matchTail3 (l : List Char) : Bool := l.isEmpty

/-- Continuation after the second atom run: `\.[^\s@]+$`. -/
def matchTail2 (l : List Char) : Bool :=
  match l with
  | c :: r => c == '.' && matchAtomPlusThen matchTail3 r
  | [] => false

/-- Continuation after the first atom run: `@[^\s@]+\.[^\s@]+$`. -/
def matchTail1 (l : List Char) : Bool :=
  match l with
  | c :: r => c == '@' && matchAtomPlusThen matchTail2 r
  | [] => false

/-- `isValidEmail` (src/index.js lines 60-62):
`/^[^\s@]+@[^\s@]+\.[^\s@]+$/.test(email)`. -/
def isValidEmail (email : String) : Bool :=
  matchAtomPlusThen matchTail1 email.toList

/-- JS `String.prototype.toLowerCase` on one ASCII character (the repository
only ever lower-cases email strings; non-ASCII case mapping is unused). -/
def toLowerChar (c : Char) : Char :=
  if 65 ≤ c.toNat && c.toNat ≤ 90 then Char.ofNat (c.toNat + 32) else c

/-- JS `email.toLowerCase()` as used by every email-taking handler. -/
def toLowerCase (s : String) : String :=
  String.mk (s.toList.map toLowerChar)

/-- Mongo `findOne({ emails: { $in: [e] } })`: first document whose `emails`
array contains `e`. -/
def findOneByEmail (store : List Customer) (e : String) : Option Customer :=
  store.find? (fun c => c.emails.contains e)

/-- Mongo `findOne({ customer_id })`: first document with that id. -/
def findOneById (store : List Customer) (cid : String) : Option Customer :=
  store.find? (fun c => c.customer_id == cid)

/-- Mongo `updateOne(filter, update)`: rewrite the first document matching
`p` with `f`, leaving the rest untouched. -/
def updateFirst (p : Customer → Bool) (f : Customer → Customer) :
    List Customer → List Customer
  | [] => []
  | c :: cs => if p c then f c :: cs else c :: updateFirst p f cs

/-- Effective free-action counter: `customer.free_actions_remaining ?? FREE_ACTIONS_LIMIT`. -/
def freeOr (c : Customer) : Int :=
  c.free_actions_remaining.getD FREE_ACTIONS_LIMIT

/-- Response of `POST /consume-actions`. -/
inductive ConsumeResult where
  | err (status : Nat) (msg : String)
  | ok (subscribed : Bool) (free_actions_remaining : Int)
deriving DecidableEq

/-- `POST /consume-actions` (src/index.js lines 417-471).  `now` models
`new Date()`. -/
def consumeActions (store : List Customer) (now : Nat) (email : String)
    (action_count : Int) : List Customer × ConsumeResult :=
  if email = "" then (store, .err 400 "Email required")
  else if !isValidEmail email then (store, .err 400 "Invalid email format")
  else
    let normalizedEmail := toLowerCase email
    match findOneByEmail store normalizedEmail with
    | none => (store, .err 404 "Customer not found")
    | some customer =>
      if customer.subscription_status then
        -- subscribed: don't consume free actions but track last action
        (updateFirst (fun c => c.customer_id == customer.customer_id)
           (fun c => { c with last_action_at := some now }) store,
         .ok true (freeOr customer))
      else
        let currentActions := freeOr customer
        let newActionsRemaining := max 0 (currentActions - action_count)
        (updateFirst (fun c => c.customer_id == customer.customer_id)
           (fun c => { c with free_actions_remaining := some newActionsRemaining,
                              last_action_at := some now }) store,
         .ok false newActionsRemaining)

/-- One `/consume-actions` request: timestamp, email, `action_count`. -/
structure ConsumeReq where
  now : Nat
  email : String
  action_count : Int
deriving DecidableEq

/-- A sequence of `/consume-actions` calls, threading the store and
collecting the responses. -/
def consumeSeq (store : List Customer) :
    List ConsumeReq → List Customer × List ConsumeResult
  | [] => (store, [])
  | r :: rs =>
    let out := consumeActions store r.now r.email r.action_count
    let rest := consumeSeq out.fst rs
    (rest.fst, out.snd :: rest.snd)

/-- Every stored record's effective free-action counter is nonnegative. -/
def storeNonneg (store : List Customer) : Prop :=
  ∀ c ∈ store, 0 ≤ freeOr c

/-- Response of `POST /check-action`. -/
inductive CheckResult where
  | err (status : Nat) (msg : String)
  | ok (allowed subscribed : Bool) (free_actions_remaining : Int) (message : Option String)
deriving DecidableEq

/-- A brand-new customer document as inserted by `/check-action`
(src/index.js lines 362-369): zero subscription, the config plan, the single
normalized email, the full free-action allotment and a creation time. -/
def freshCheckActionCustomer (cid email : String) (now : Nat) : Customer :=
  { customer_id := cid
    emails := [email]
    subscription_status := false
    free_actions_remaining := some FREE_ACTIONS_LIMIT
    plan := some "STRIPE_PRICE_ID_PROD"
    created_at := some now
    last_action_at := none }

/-- `POST /check-action` (src/index.js lines 344-414).  `freshId` models the
id Stripe would issue if a new customer has to be created. -/
def checkAction (store : List Customer) (now : Nat) (freshId : String)
    (email : String) (action_count : Int) : List Customer × CheckResult :=
  if email = "" then (store, .err 400 "Email required")
  else if !isValidEmail email then (store, .err 400 "Invalid email format")
  else
    let normalizedEmail := toLowerCase email
    -- find, inserting a fresh record (and re-reading it) when absent
    let found :=
      match findOneByEmail store normalizedEmail with
      | some c => (store, some c)
      | none =>
        let store1 := store ++ [freshCheckActionCustomer freshId normalizedEmail now]
        (store1, findOneByEmail store1 normalizedEmail)
    match found.snd with
    | none => (found.fst, .err 500 "Internal server error")
    | some customer =>
      -- initialize free_actions_remaining if not set
      let initialized :=
        match customer.free_actions_remaining with
        | none =>
          (updateFirst (fun c => c.customer_id == customer.customer_id)
             (fun c => { c with free_actions_remaining := some FREE_ACTIONS_LIMIT })
             found.fst,
           FREE_ACTIONS_LIMIT)
        | some n => (found.fst, n)
      if customer.subscription_status then
        (initialized.fst, .ok true true initialized.snd none)
      else if action_count ≤ initialized.snd then
        (initialized.fst, .ok true false initialized.snd none)
      else
        (initialized.fst, .ok false false initialized.snd
          (some "No free actions remaining. Please subscribe to continue."))

/-- A verified Stripe webhook event, after `stripe.webhooks.constructEvent`
has already checked the signature over the raw body. -/
inductive WebhookEvent where
  | checkoutCompleted (customer : String)
  | other (type : String)
deriving DecidableEq

/-- `POST /webhook` (src/index.js lines 137-182), given an already-verified
event.  The response is the HTTP status paired with the `received` flag. -/
def webhook (store : List Customer) (event : WebhookEvent) :
    List Customer × (Nat × Bool) :=
  match event with
  | .checkoutCompleted customer_id =>
    (updateFirst (fun c => c.customer_id == customer_id)
       (fun c => { c with subscription_status := true }) store,
     (200, true))
  | .other _ => (store, (200, true))

/-- Response of `POST /unsubscribe`. -/
inductive UnsubResult where
  | err (status : Nat) (msg : String)
  | ok (message : Option String)
deriving DecidableEq

/-- Outcome of `stripe.subscriptions.list` during `/unsubscribe`:
the customer is missing in Stripe (`resource_missing`), the call succeeds
with a list of `(id, status)` pairs, or it fails with some other error. -/
inductive ListOutcome where
  | missing
  | ok (subs : List (String × String))
  | otherError
deriving DecidableEq

/-- `POST /unsubscribe` (src/index.js lines 510-601).  Individual
`stripe.subscriptions.cancel` failures are caught and only logged, so the
per-subscription cancel outcomes never reach the store or the response. -/
def unsubscribe (store : List Customer) (email : String)
    (listOutcome : ListOutcome) : List Customer × UnsubResult :=
  if email = "" then (store, .err 400 "Email required")
  else if !isValidEmail email then (store, .err 400 "Invalid email format")
  else
    let normalizedEmail := toLowerCase email
    match findOneByEmail store normalizedEmail with
    | none => (store, .err 404 "Customer not found")
    | some customer =>
      if !customer.subscription_status then
        (store, .ok (some "No active subscription"))
      else
        match listOutcome with
        | .missing =>
          (updateFirst (fun c => c.customer_id == customer.customer_id)
             (fun c => { c with subscription_status := false }) store,
           .ok (some "Subscription status reset"))
        | .otherError => (store, .err 500 "Failed to unsubscribe")
        | .ok _subs =>
          -- cancel attempts are fire-and-forget; then flip the local flag
          (updateFirst (fun c => c.customer_id == customer.customer_id)
             (fun c => { c with subscription_status := false }) store,
           .ok none)

/-- Response of `POST /link-email`. -/
inductive LinkResult where
  | err (status : Nat) (msg : String)
  | ok (success : Bool)
deriving DecidableEq

/-- `POST /link-email` (src/index.js lines 604-625):
`updateOne({ customer_id }, { $addToSet: { emails: normalizedEmail } })`,
reporting `success: modifiedCount > 0`. -/
def linkEmail (store : List Customer) (customer_id new_email : String) :
    List Customer × LinkResult :=
  if customer_id = "" || new_email = "" then (store, .err 400 "Missing data")
  else if customer_id.length > 100 then (store, .err 400 "Invalid customer_id")
  else if !isValidEmail new_email then (store, .err 400 "Invalid email format")
  else
    let normalizedEmail := toLowerCase new_email
    let modified :=
      match findOneById store customer_id with
      | some c => !c.emails.contains normalizedEmail
      | none => false
    (updateFirst (fun c => c.customer_id == customer_id)
       (fun c =>
         if c.emails.contains normalizedEmail then c
         else { c with emails := c.emails ++ [normalizedEmail] }) store,
     .ok modified)

/-- Response of `POST /resolve-customer`. -/
inductive ResolveResult where
  | err (status : Nat) (msg : String)
  | notFound
  | ok (customer_id : String) (subscribed : Bool) (free_actions_remaining : Int)
deriving DecidableEq

/-- `POST /resolve-customer` (src/index.js lines 284-309): pure lookup. -/
def resolveCustomer (store : List Customer) (email : String) :
    List Customer × ResolveResult :=
  if email = "" then (store, .err 400 "Email required")
  else if !isValidEmail email then (store, .err 400 "Invalid email format")
  else
    match findOneByEmail store (toLowerCase email) with
    | none => (store, .notFound)
    | some c => (store, .ok c.customer_id c.subscription_status (freeOr c))

/-- Response of `GET /action-status`. -/
inductive StatusResult where
  | err (status : Nat) (msg : String)
  | ok (subscribed : Bool) (free_actions_remaining : Int) (can_perform_action : Bool)
deriving DecidableEq

/-- `GET /action-status` (src/index.js lines 474-507): read-only preview. -/
def actionStatus (store : List Customer) (email : String) :
    List Customer × StatusResult :=
  if email = "" then (store, .err 400 "Email required")
  else if !isValidEmail email then (store, .err 400 "Invalid email format")
  else
    match findOneByEmail store (toLowerCase email) with
    | none => (store, .ok false FREE_ACTIONS_LIMIT true)
    | some c =>
      let freeActions := freeOr c
      (store, .ok c.subscription_status freeActions
        (c.subscription_status || freeActions > 0))

/-- The identity-resolution race inside `/check-action` (and, analogously,
`/create-checkout`): each request performs an atomic `findOne` and, when it
saw no record, a later atomic `insertOne` — the handler awaits between the
two, so another request can run in between.  This schedule interleaves two
requests for the same email so that both `findOne` steps run before either
`insertOne`; there is no uniqueness constraint on `emails` to stop the
second insert. -/
def raceBothFindFirst (store : List Customer) (email cid1 cid2 : String)
    (now : Nat) : List Customer :=
  let r1 := findOneByEmail store email
  let r2 := findOneByEmail store email
  let s1 := if r1 = none then store ++ [freshCheckActionCustomer cid1 email now]
            else store
  let s2 := if r2 = none then s1 ++ [freshCheckActionCustomer cid2 email now]
            else s1
  s2

/-- Number of stored records whose `emails` set contains `e`. -/
def countByEmail (store : List Customer) (e : String) : Nat :=
  (store.filter (fun c => c.emails.contains e)).length


/-- A non-subscribed customer holding 5 remaining free actions: the store of
the spec scenario "customer with `free_actions_remaining:5` consumes 8". -/
def cusFiveLeft : Customer :=
  { customer_id := "cus_5", emails := ["a@x.com"], subscription_status := false,
    free_actions_remaining := some 5, plan := none, created_at := none,
    last_action_at := none }

/-- A subscribed customer, for exercising the subscription branches. -/
def cusSub : Customer :=
  { customer_id := "cus_7", emails := ["s@x.com"], subscription_status := true,
    free_actions_remaining := some 12, plan := none, created_at := none,
    last_action_at := none }

/-- Customer owning `a@x.com` in the link-email conflict scenario. -/
def cusAx : Customer :=
  { customer_id := "cus_1", emails := ["a@x.com"], subscription_status := false,
    free_actions_remaining := some 50, plan := none, created_at := none,
    last_action_at := none }

/-- A second, distinct customer in the link-email conflict scenario. -/
def cusBx : Customer :=
  { customer_id := "cus_2", emails := ["b@x.com"], subscription_status := false,
    free_actions_remaining := some 50, plan := none, created_at := none,
    last_action_at := none }

/-- Forget the audit-only `last_action_at` timestamp of a record. -/
def eraseLastAction (c : Customer) : Customer := { c with last_action_at := none }

/-- Projection of a customer record that applies the default to the
free-action field: identity, aliases, subscription flag, effective counter,
plan and creation/action timestamps. -/
def effProj (c : Customer) :
    String × List String × Bool × Int × Option String × Option Nat × Option Nat :=
  (c.customer_id, c.emails, c.subscription_status, freeOr c, c.plan,
   c.created_at, c.last_action_at)

/-! ### Lemmas about the Mongo primitives -/

theorem updateFirst_length (p : Customer → Bool) (f : Customer → Customer) :
    ∀ s : List Customer, (updateFirst p f s).length = s.length
  | [] => rfl
  | c :: cs => by
    by_cases h : p c = true
    · simp [updateFirst, h]
    · simp [updateFirst, h, updateFirst_length p f cs]

theorem updateFirst_nomatch {p : Customer → Bool} {f : Customer → Customer} :
    ∀ {s : List Customer}, (∀ c ∈ s, p c = false) → updateFirst p f s = s
  | [], _ => rfl
  | c :: cs, h => by
    have hc : p c = false := h c (List.mem_cons_self c cs)
    simp only [updateFirst, hc, Bool.false_eq_true, if_false, List.cons.injEq, true_and]
    exact updateFirst_nomatch fun d hd => h d (List.mem_cons_of_mem c hd)

/-- Mapping a projection `g` over an `updateFirst` is a no-op as long as the
rewrite `f` preserves `g` on every matched element of the list. -/
theorem map_updateFirst_eq {p : Customer → Bool} {f : Customer → Customer}
    {α : Type} (g : Customer → α) :
    ∀ {s : List Customer}, (∀ d ∈ s, p d = true → g (f d) = g d) →
      (updateFirst p f s).map g = s.map g
  | [], _ => rfl
  | c :: cs, h => by
    by_cases hc : p c = true
    · simp [updateFirst, hc, h c (List.mem_cons_self c cs) hc]
    · rw [Bool.not_eq_true] at hc
      simp only [updateFirst, hc, Bool.false_eq_true, if_false, List.map_cons,
        List.cons.injEq, true_and]
      exact map_updateFirst_eq g fun d hd => h d (List.mem_cons_of_mem c hd)

theorem find?_updateFirst {p : Customer → Bool} {f : Customer → Customer}
    (hp : ∀ d, p (f d) = p d) :
    ∀ s : List Customer, (updateFirst p f s).find? p = (s.find? p).map f
  | [] => rfl
  | c :: cs => by
    by_cases hc : p c = true
    · simp [updateFirst, hc, List.find?, hp c]
    · simp only [updateFirst, hc, if_false, List.find?,
        Bool.not_eq_true] at *
      simp [List.find?, hc, find?_updateFirst hp cs]

theorem updateFirst_idem {p : Customer → Bool} {f : Customer → Customer}
    (hp : ∀ d, p (f d) = p d) (hf : ∀ d, f (f d) = f d) :
    ∀ s : List Customer, updateFirst p f (updateFirst p f s) = updateFirst p f s
  | [] => rfl
  | c :: cs => by
    by_cases hc : p c = true
    · simp [updateFirst, hc, hp c, hf c]
    · simp [updateFirst, hc, updateFirst_idem hp hf cs]

theorem storeNonneg_updateFirst {p : Customer → Bool} {f : Customer → Customer}
    (hf : ∀ d, 0 ≤ freeOr d → 0 ≤ freeOr (f d)) :
    ∀ {s : List Customer}, storeNonneg s → storeNonneg (updateFirst p f s)
  | [], _ => by intro c hc; cases hc
  | c :: cs, h => by
    have hcs : storeNonneg cs := fun d hd => h d (List.mem_cons_of_mem c hd)
    have hc0 : 0 ≤ freeOr c := h c (List.mem_cons_self c cs)
    by_cases hc : p c = true
    · simp only [updateFirst, hc, if_true]
      intro d hd
      rcases List.mem_cons.mp hd with rfl | hd
      · exact hf c hc0
      · exact hcs d hd
    · simp only [updateFirst, hc, Bool.false_eq_true, if_false]
      intro d hd
      rcases List.mem_cons.mp hd with rfl | hd
      · exact hc0
      · exact storeNonneg_updateFirst hf hcs d hd

/-! ### Lemmas about the email regex -/

theorem matchAtomStarThen_decomp {k : List Char → Bool} :
    ∀ {l : List Char}, matchAtomStarThen k l = true →
      ∃ l₁ l₂, l = l₁ ++ l₂ ∧ l₁.all isEmailAtomChar = true ∧ k l₂ = true
  | [], h => ⟨[], [], rfl, rfl, by simpa [matchAtomStarThen] using h⟩
  | c :: cs, h => by
    simp only [matchAtomStarThen, Bool.or_eq_true, Bool.and_eq_true] at h
    rcases h with h | ⟨hc, hrest⟩
    · exact ⟨[], c :: cs, rfl, rfl, h⟩
    · obtain ⟨l₁, l₂, heq, hall, hk⟩ := matchAtomStarThen_decomp hrest
      exact ⟨c :: l₁, l₂, by simp [heq], by simp [List.all_cons, hc, hall], hk⟩

theorem matchAtomPlusThen_decomp {k : List Char → Bool} {l : List Char}
    (h : matchAtomPlusThen k l = true) :
    ∃ c l₁ l₂, l = c :: (l₁ ++ l₂) ∧ isEmailAtomChar c = true ∧
      l₁.all isEmailAtomChar = true ∧ k l₂ = true := by
  match l with
  | [] => exact absurd h (by simp [matchAtomPlusThen])
  | c :: cs =>
    simp only [matchAtomPlusThen, Bool.and_eq_true] at h
    obtain ⟨l₁, l₂, heq, hall, hk⟩ := matchAtomStarThen_decomp h.2
    exact ⟨c, l₁, l₂, by simp [heq], h.1, hall, hk⟩

theorem isEmailAtomChar_not_space {c : Char} (h : isEmailAtomChar c = true) :
    isJsSpace c = false := by
  rw [isEmailAtomChar, Bool.and_eq_true] at h
  simpa using h.1

/-- The email shape check cannot succeed on a string containing any JS
whitespace character: `[^\s@]` excludes whitespace and the two literal
characters `@` and `.` are not whitespace either.  Hence there is nothing
for a trim step to remove from an accepted email. -/
theorem isValidEmail_no_space {e : String} (h : isValidEmail e = true) :
    ∀ ch ∈ e.toList, isJsSpace ch = false := by
  rw [isValidEmail] at h
  obtain ⟨c₁, A, r1, heq1, hc₁, hA, h1⟩ := matchAtomPlusThen_decomp h
  match r1, h1 with
  | c :: r2, h1 => ?_
  rw [matchTail1, Bool.and_eq_true] at h1
  obtain ⟨hat, h2⟩ := h1
  obtain ⟨c₂, B, r3, heq2, hc₂, hB, h3⟩ := matchAtomPlusThen_decomp h2
  match r3, h3 with
  | c' :: r4, h3 => ?_
  rw [matchTail2, Bool.and_eq_true] at h3
  obtain ⟨hdot, h4⟩ := h3
  obtain ⟨c₃, C, r5, heq3, hc₃, hC, h5⟩ := matchAtomPlusThen_decomp h4
  have hr5 : r5 = [] := by
    rw [matchTail3] at h5
    exact List.isEmpty_iff.mp h5
  have hat' : c = '@' := by simpa using hat
  have hdot' : c' = '.' := by simpa using hdot
  subst heq2 heq3 hr5 hat' hdot'
  intro ch hch
  rw [heq1] at hch
  have hAll : ∀ l : List Char, l.all isEmailAtomChar = true →
      ch ∈ l → isJsSpace ch = false := by
    intro l hl hmem
    exact isEmailAtomChar_not_space (List.all_eq_true.mp hl ch hmem)
  simp only [List.mem_cons, List.mem_append, List.append_nil] at hch
  rcases hch with rfl | hch
  · exact isEmailAtomChar_not_space hc₁
  rcases hch with hch | hch
  · exact hAll A hA hch
  rcases hch with rfl | hch
  · decide
  rcases hch with rfl | hch
  · exact isEmailAtomChar_not_space hc₂
  rcases hch with hch | hch
  · exact hAll B hB hch
  rcases hch with rfl | hch
  · decide
  rcases hch with rfl | hch
  · exact isEmailAtomChar_not_space hc₃
  exact hAll C hC hch

/-! ### Behaviour of one `/consume-actions` call -/

/-- One `/consume-actions` call preserves nonnegativity of every stored
effective counter and only ever reports a nonnegative counter, because the
non-subscribed branch stores `Math.max(0, current - action_count)` and the
subscribed branch leaves counters alone. -/
theorem consumeActions_step (store : List Customer) (now : Nat) (email : String)
    (k : Int) (h : storeNonneg store) :
    storeNonneg (consumeActions store now email k).fst ∧
    ∀ b m, (consumeActions store now email k).snd = ConsumeResult.ok b m → 0 ≤ m := by
  unfold consumeActions
  by_cases he : email = ""
  · rw [if_pos he]
    exact ⟨h, fun b m hm => by simp at hm⟩
  rw [if_neg he]
  by_cases hv : isValidEmail email
  case neg =>
    rw [Bool.not_eq_true] at hv
    simp only [hv, Bool.not_false, if_true]
    exact ⟨h, fun b m hm => by simp at hm⟩
  case pos =>
    simp only [hv, Bool.not_true, Bool.false_eq_true, if_false]
    cases hfind : findOneByEmail store (toLowerCase email) with
    | none => exact ⟨h, fun b m hm => by simp at hm⟩
    | some customer =>
      have hmem : customer ∈ store := List.mem_of_find?_eq_some hfind
      have hcust : 0 ≤ freeOr customer := h customer hmem
      cases hs : customer.subscription_status with
      | true =>
        simp only [hs, if_true]
        refine ⟨storeNonneg_updateFirst (fun d hd => ?_) h, fun b m hm => ?_⟩
        · simpa [freeOr] using hd
        · simp only [ConsumeResult.ok.injEq] at hm
          exact hm.2 ▸ hcust
      | false =>
        simp only [hs, Bool.false_eq_true, if_false]
        refine ⟨storeNonneg_updateFirst (fun d _ => ?_) h, fun b m hm => ?_⟩
        · simp [freeOr, le_max_left]
        · simp only [ConsumeResult.ok.injEq] at hm
          exact hm.2 ▸ le_max_left 0 _

/-! ### The claims -/

/-- C1 — Quota floor: starting from any store whose effective counters are
all nonnegative, after any sequence of `/consume-actions` calls with any
`action_count` values every stored effective counter is still nonnegative
and every successful response reported a nonnegative
`free_actions_remaining`; in particular a non-subscribed customer with 5
free actions who consumes 8 ends (stored and returned) at exactly 0. -/
theorem quota_floor (store : List Customer) (reqs : List ConsumeReq)
    (h : storeNonneg store) :
    (storeNonneg (consumeSeq store reqs).fst ∧
     ∀ r ∈ (consumeSeq store reqs).snd, ∀ b m, r = ConsumeResult.ok b m → 0 ≤ m) ∧
    consumeActions [cusFiveLeft] 7 "a@x.com" 8 =
      ([{ cusFiveLeft with
            free_actions_remaining := some 0
            last_action_at := some 7 }],
       ConsumeResult.ok false 0) := by
  refine ⟨?_, by decide⟩
  induction reqs generalizing store with
  | nil => exact ⟨h, by simp [consumeSeq]⟩
  | cons r rs ih =>
    obtain ⟨h1, h2⟩ := consumeActions_step store r.now r.email r.action_count h
    obtain ⟨ih1, ih2⟩ := ih _ h1
    refine ⟨ih1, ?_⟩
    intro resp hresp b m hm
    simp only [consumeSeq, List.mem_cons] at hresp
    rcases hresp with rfl | hresp
    · exact h2 b m hm
    · exact ih2 resp hresp b m hm

/-- Instance of `quota_floor` on the scenario store. -/
theorem quota_floor_witness :
    storeNonneg [cusFiveLeft] ∧
    ((storeNonneg (consumeSeq [cusFiveLeft] [⟨0, "a@x.com", 8⟩]).fst ∧
      ∀ r ∈ (consumeSeq [cusFiveLeft] [⟨0, "a@x.com", 8⟩]).snd,
        ∀ b m, r = ConsumeResult.ok b m → 0 ≤ m) ∧
     consumeActions [cusFiveLeft] 7 "a@x.com" 8 =
       ([{ cusFiveLeft with
             free_actions_remaining := some 0
             last_action_at := some 7 }],
        ConsumeResult.ok false 0)) :=
  ⟨fun c hc => by rw [List.mem_singleton] at hc; subst hc; decide,
   quota_floor [cusFiveLeft] [⟨0, "a@x.com", 8⟩]
     (fun c hc => by rw [List.mem_singleton] at hc; subst hc; decide)⟩

/-- C2 — Subscribed bypass: when the resolved customer is subscribed,
`/consume-actions` returns success with the preserved effective counter and
the only stored change is the `last_action_at` timestamp of that customer's
record — mapping away `last_action_at` shows every other field (including
`free_actions_remaining`) of every record unchanged. -/
theorem subscribed_bypass (store : List Customer) (now : Nat)
    (email : String) (k : Int) (c : Customer)
    (he : ¬ email = "") (hv : isValidEmail email = true)
    (hf : findOneByEmail store (toLowerCase email) = some c)
    (hs : c.subscription_status = true) :
    consumeActions store now email k =
      (updateFirst (fun d => d.customer_id == c.customer_id)
         (fun d => { d with last_action_at := some now }) store,
       ConsumeResult.ok true (freeOr c)) ∧
    ((consumeActions store now email k).fst).map eraseLastAction =
      store.map eraseLastAction := by
  have h1 : consumeActions store now email k =
      (updateFirst (fun d => d.customer_id == c.customer_id)
         (fun d => { d with last_action_at := some now }) store,
       ConsumeResult.ok true (freeOr c)) := by
    unfold consumeActions
    rw [if_neg he]
    simp only [hv, Bool.not_true, Bool.false_eq_true, if_false, hf, hs, if_true]
  refine ⟨h1, ?_⟩
  rw [h1]
  exact map_updateFirst_eq eraseLastAction (fun d _ _ => rfl)

/-- Instance of `subscribed_bypass` on a concrete subscribed customer. -/
theorem subscribed_bypass_witness :
    consumeActions [cusSub] 4 "s@x.com" 3 =
      (updateFirst (fun d => d.customer_id == cusSub.customer_id)
         (fun d => { d with last_action_at := some 4 }) [cusSub],
       ConsumeResult.ok true (freeOr cusSub)) ∧
    ((consumeActions [cusSub] 4 "s@x.com" 3).fst).map eraseLastAction =
      [cusSub].map eraseLastAction :=
  subscribed_bypass [cusSub] 4 "s@x.com" 3 cusSub (by decide) (by decide)
    (by decide) rfl

/-- C3 — Webhook idempotence: applying a verified
`checkout.session.completed` event for an existing `customer_id` twice
produces exactly the state (and response) of applying it once; the handler
never changes the number of records (it never inserts), and afterwards the
record found under that `customer_id` has `subscription_status = true`. -/
theorem webhook_idempotent (store : List Customer) (cid : String)
    (hc : ∃ c ∈ store, c.customer_id = cid) :
    webhook (webhook store (WebhookEvent.checkoutCompleted cid)).fst
        (WebhookEvent.checkoutCompleted cid) =
      webhook store (WebhookEvent.checkoutCompleted cid) ∧
    ((webhook store (WebhookEvent.checkoutCompleted cid)).fst).length =
      store.length ∧
    ∃ d, findOneById (webhook store (WebhookEvent.checkoutCompleted cid)).fst cid
        = some d ∧ d.subscription_status = true := by
  refine ⟨?_, ?_, ?_⟩
  · simp only [webhook]
    rw [@updateFirst_idem (fun c => c.customer_id == cid)
      (fun c => { c with subscription_status := true })
      (fun d => rfl) (fun d => rfl) store]
  · simp only [webhook]
    exact updateFirst_length _ _ _
  · obtain ⟨c0, hc0, hcid⟩ := hc
    have hsome : (store.find? (fun c => c.customer_id == cid)).isSome := by
      rw [List.find?_isSome]
      exact ⟨c0, hc0, by simp [hcid]⟩
    obtain ⟨c1, hc1⟩ := Option.isSome_iff_exists.mp hsome
    simp only [webhook, findOneById]
    rw [@find?_updateFirst (fun c => c.customer_id == cid)
      (fun c => { c with subscription_status := true }) (fun d => rfl) store, hc1]
    exact ⟨_, rfl, rfl⟩

/-- Instance of `webhook_idempotent` on a one-record store. -/
theorem webhook_idempotent_witness :
    webhook (webhook [cusBx] (WebhookEvent.checkoutCompleted "cus_2")).fst
        (WebhookEvent.checkoutCompleted "cus_2") =
      webhook [cusBx] (WebhookEvent.checkoutCompleted "cus_2") ∧
    ((webhook [cusBx] (WebhookEvent.checkoutCompleted "cus_2")).fst).length =
      [cusBx].length ∧
    ∃ d, findOneById (webhook [cusBx] (WebhookEvent.checkoutCompleted "cus_2")).fst
        "cus_2" = some d ∧ d.subscription_status = true :=
  webhook_idempotent [cusBx] "cus_2" ⟨cusBx, List.mem_singleton.mpr rfl, rfl⟩

/-- C8 — Webhook for an unknown customer: when no stored record carries the
event's `customer_id`, the handler acknowledges with HTTP 200 and
`received: true` and returns the store completely unchanged (it creates no
record, since `updateOne` without upsert matches nothing). -/
theorem webhook_unknown_customer (store : List Customer) (cid : String)
    (h : ∀ c ∈ store, c.customer_id ≠ cid) :
    webhook store (WebhookEvent.checkoutCompleted cid) = (store, (200, true)) := by
  simp only [webhook]
  rw [updateFirst_nomatch (fun c hc => beq_eq_false_iff_ne.mpr (h c hc))]

/-- Instance of `webhook_unknown_customer` on a one-record store. -/
theorem webhook_unknown_customer_witness :
    webhook [cusAx] (WebhookEvent.checkoutCompleted "cus_404") =
      ([cusAx], (200, true)) :=
  webhook_unknown_customer [cusAx] "cus_404"
    (fun c hc => by rw [List.mem_singleton] at hc; subst hc; decide)

/-- C4 (counterexample) — `/check-action` is not read-only as claimed: on an
empty store, checking a previously-unseen valid email inserts a brand-new
customer record, so the call does mutate customer state. -/
theorem checkAction_creates_record_for_new_email :
    (checkAction [] 0 "cus_1" "a@x.com" 1).fst =
      [freshCheckActionCustomer "cus_1" "a@x.com" 0] ∧
    (checkAction [] 0 "cus_1" "a@x.com" 1).fst ≠ ([] : List Customer) := by
  exact ⟨by decide, by decide⟩

/-- C4 (amended) — For an email resolving to an existing customer (in a
store with unique `customer_id`s), `/check-action` never changes any
record's identity, aliases, subscription flag, effective free-action
counter, plan or timestamps (it may at most materialise the default into an
unset `free_actions_remaining` field, which `effProj` shows is invisible),
and for a non-subscribed customer it returns
`allowed = (free_actions_remaining ≥ action_count)` with the
"subscribe to continue" message exactly when not allowed. -/
theorem checkAction_readonly_for_existing_customer (store : List Customer)
    (now : Nat) (freshId email : String) (k : Int) (c : Customer)
    (he : ¬ email = "") (hv : isValidEmail email = true)
    (hf : findOneByEmail store (toLowerCase email) = some c)
    (hids : ∀ d ∈ store, d.customer_id = c.customer_id → d = c) :
    ((checkAction store now freshId email k).fst).map effProj =
      store.map effProj ∧
    (checkAction store now freshId email k).snd =
      (if c.subscription_status then CheckResult.ok true true (freeOr c) none
       else if k ≤ freeOr c then CheckResult.ok true false (freeOr c) none
       else CheckResult.ok false false (freeOr c)
         (some "No free actions remaining. Please subscribe to continue.")) := by
  unfold checkAction
  rw [if_neg he]
  simp only [hv, Bool.not_true, Bool.false_eq_true, if_false, hf]
  cases hfree : c.free_actions_remaining with
  | some n =>
    have hfo : freeOr c = n := by simp [freeOr, hfree]
    simp only [hfo]
    cases hs : c.subscription_status with
    | true => simp [hs]
    | false =>
      by_cases hk : k ≤ n
      · simp [hs, hk]
      · simp [hs, hk]
  | none =>
    have hfo : freeOr c = FREE_ACTIONS_LIMIT := by simp [freeOr, hfree]
    have hmap : List.map effProj
        (updateFirst (fun d => d.customer_id == c.customer_id)
          (fun d => { d with free_actions_remaining := some FREE_ACTIONS_LIMIT })
          store) = List.map effProj store := by
      refine map_updateFirst_eq effProj (fun d hd hp => ?_)
      have hd' : d = c := hids d hd (beq_iff_eq.mp hp)
      subst hd'
      simp [effProj, freeOr, hfree]
    cases hs : c.subscription_status with
    | true =>
      refine ⟨?_, ?_⟩
      · simpa [hs] using hmap
      · simp [hs, hfo]
    | false =>
      by_cases hk : k ≤ FREE_ACTIONS_LIMIT
      · refine ⟨?_, ?_⟩
        · simpa [hs, hk] using hmap
        · simp [hs, hk, hfo]
      · refine ⟨?_, ?_⟩
        · simpa [hs, hk] using hmap
        · simp [hs, hk, hfo]

/-- Instance of `checkAction_readonly_for_existing_customer`: checking 2
actions against the customer holding 5. -/
theorem checkAction_readonly_for_existing_customer_witness :
    ((checkAction [cusFiveLeft] 0 "cus_9" "a@x.com" 2).fst).map effProj =
      [cusFiveLeft].map effProj ∧
    (checkAction [cusFiveLeft] 0 "cus_9" "a@x.com" 2).snd =
      (if cusFiveLeft.subscription_status then
         CheckResult.ok true true (freeOr cusFiveLeft) none
       else if 2 ≤ freeOr cusFiveLeft then
         CheckResult.ok true false (freeOr cusFiveLeft) none
       else CheckResult.ok false false (freeOr cusFiveLeft)
         (some "No free actions remaining. Please subscribe to continue.")) :=
  checkAction_readonly_for_existing_customer [cusFiveLeft] 0 "cus_9" "a@x.com" 2
    cusFiveLeft (by decide) (by decide) (by decide)
    (fun d hd _ => List.mem_singleton.mp hd)

/-- C5 — `/link-email` has no conflict guard: `a@x.com` already belongs to
`cus_1`, yet linking it to the different customer `cus_2` succeeds and
leaves both records containing `a@x.com` — the overlap the spec's
`ConflictError` requirement is meant to prevent.  (Re-adding an email the
record already holds is indeed a store no-op, as the last conjunct shows,
though it is then reported as `success: false` because `modifiedCount` is
zero.) -/
theorem linkEmail_blind_add_conflict :
    "a@x.com" ∈ cusAx.emails ∧ cusAx.customer_id ≠ "cus_2" ∧
    linkEmail [cusAx, cusBx] "cus_2" "a@x.com" =
      ([cusAx, { cusBx with emails := ["b@x.com", "a@x.com"] }],
       LinkResult.ok true) ∧
    linkEmail [cusAx, cusBx] "cus_1" "a@x.com" =
      ([cusAx, cusBx], LinkResult.ok false) := by
  exact ⟨by decide, by decide, by decide, by decide⟩

/-- C6 — The read-then-insert race: two concurrent first-time requests for
the same email whose `findOne` steps both run before either `insertOne`
(a schedule the event loop permits, since the handler awaits between the
two store operations and no uniqueness constraint exists) leave two
customer records containing that email instead of exactly one. -/
theorem race_two_customer_records :
    countByEmail (raceBothFindFirst [] "a@x.com" "cus_1" "cus_2" 0) "a@x.com" = 2 := by
  decide

/-- C7 — Unsubscribe semantics: for an existing subscribed customer, as
long as the subscriptions-list call itself does not fail unexpectedly
(individual cancel failures are swallowed, so any set of cancel outcomes is
covered by `ListOutcome.ok subs`), the handler flips exactly that
customer's `subscription_status` to `false`, leaves every record's
`free_actions_remaining` unchanged, and reports success; for an existing
non-subscribed customer it reports success with the store unchanged. -/
theorem unsubscribe_semantics (store : List Customer) (email : String)
    (lo : ListOutcome) (c : Customer)
    (he : ¬ email = "") (hv : isValidEmail email = true)
    (hf : findOneByEmail store (toLowerCase email) = some c)
    (hlo : lo ≠ ListOutcome.otherError) :
    (c.subscription_status = true →
      (unsubscribe store email lo).fst =
        updateFirst (fun d => d.customer_id == c.customer_id)
          (fun d => { d with subscription_status := false }) store ∧
      ((unsubscribe store email lo).fst).map (fun d => d.free_actions_remaining) =
        store.map (fun d => d.free_actions_remaining) ∧
      (∃ d, findOneById (unsubscribe store email lo).fst c.customer_id = some d ∧
        d.subscription_status = false) ∧
      ∃ m, (unsubscribe store email lo).snd = UnsubResult.ok m) ∧
    (c.subscription_status = false →
      unsubscribe store email lo =
        (store, UnsubResult.ok (some "No active subscription"))) := by
  have hmem : c ∈ store := List.mem_of_find?_eq_some hf
  have hbase : ∀ _hs : c.subscription_status = true,
      lo ≠ ListOutcome.otherError →
      (unsubscribe store email lo).fst =
        updateFirst (fun d => d.customer_id == c.customer_id)
          (fun d => { d with subscription_status := false }) store ∧
      ∃ m, (unsubscribe store email lo).snd = UnsubResult.ok m := by
    intro hs _
    unfold unsubscribe
    rw [if_neg he]
    simp only [hv, Bool.not_true, Bool.false_eq_true, if_false, hf, hs]
    cases lo with
    | missing => exact ⟨rfl, _, rfl⟩
    | ok subs => exact ⟨rfl, _, rfl⟩
    | otherError => exact absurd rfl hlo
  constructor
  · intro hs
    obtain ⟨hfst, hm⟩ := hbase hs hlo
    refine ⟨hfst, ?_, ?_, hm⟩
    · rw [hfst]
      exact map_updateFirst_eq _ (fun d _ _ => rfl)
    · rw [hfst]
      have hsome : (store.find? (fun d => d.customer_id == c.customer_id)).isSome := by
        rw [List.find?_isSome]
        exact ⟨c, hmem, by simp⟩
      obtain ⟨c1, hc1⟩ := Option.isSome_iff_exists.mp hsome
      rw [findOneById, @find?_updateFirst (fun d => d.customer_id == c.customer_id)
        (fun d => { d with subscription_status := false }) (fun d => rfl) store, hc1]
      exact ⟨_, rfl, rfl⟩
  · intro hs
    unfold unsubscribe
    rw [if_neg he]
    simp [hv, hf, hs]

/-- Instance of `unsubscribe_semantics` on a subscribed customer with a
successful (empty) subscriptions list. -/
theorem unsubscribe_semantics_witness :
    (cusSub.subscription_status = true →
      (unsubscribe [cusSub] "s@x.com" (ListOutcome.ok [])).fst =
        updateFirst (fun d => d.customer_id == cusSub.customer_id)
          (fun d => { d with subscription_status := false }) [cusSub] ∧
      ((unsubscribe [cusSub] "s@x.com" (ListOutcome.ok [])).fst).map
          (fun d => d.free_actions_remaining) =
        [cusSub].map (fun d => d.free_actions_remaining) ∧
      (∃ d, findOneById (unsubscribe [cusSub] "s@x.com" (ListOutcome.ok [])).fst
          cusSub.customer_id = some d ∧ d.subscription_status = false) ∧
      ∃ m, (unsubscribe [cusSub] "s@x.com" (ListOutcome.ok [])).snd =
        UnsubResult.ok m) ∧
    (cusSub.subscription_status = false →
      unsubscribe [cusSub] "s@x.com" (ListOutcome.ok []) =
        ([cusSub], UnsubResult.ok (some "No active subscription"))) :=
  unsubscribe_semantics [cusSub] "s@x.com" (ListOutcome.ok []) cusSub
    (by decide) (by decide) (by decide) (by decide)

/-- C9 (counterexample) — no trimming happens: `" a@x.com"` is valid after
trimming its leading space (`isValidEmail "a@x.com" = true`), yet the raw
input is rejected with a 400 `Invalid email format` instead of being
accepted, because the shape check runs on the untrimmed string and `[^\s@]`
refuses whitespace. -/
theorem untrimmed_email_rejected :
    isValidEmail "a@x.com" = true ∧
    isValidEmail " a@x.com" = false ∧
    checkAction [] 0 "cus_1" " a@x.com" 1 =
      ([], CheckResult.err 400 "Invalid email format") := by
  exact ⟨by decide, by decide, by decide⟩

/-- C9 (amended) — Every email-taking endpoint lower-cases (but never
trims) the raw email, and rejects any email failing the `local@domain`
shape with a 400 error before touching the store; the shape forbids
whitespace anywhere, so an email needing trimming is rejected rather than
trimmed; an upper-cased spelling of a stored email still reaches the
lower-cased record. -/
theorem email_validation_and_lowercase (store : List Customer)
    (email cid freshId : String) (k : Int) (lo : ListOutcome) (now : Nat)
    (hv : isValidEmail email = false) :
    (∃ m, checkAction store now freshId email k = (store, CheckResult.err 400 m)) ∧
    (∃ m, consumeActions store now email k = (store, ConsumeResult.err 400 m)) ∧
    (∃ m, unsubscribe store email lo = (store, UnsubResult.err 400 m)) ∧
    (∃ m, linkEmail store cid email = (store, LinkResult.err 400 m)) ∧
    (∃ m, resolveCustomer store email = (store, ResolveResult.err 400 m)) ∧
    (∃ m, actionStatus store email = (store, StatusResult.err 400 m)) ∧
    (∀ e : String, (∃ ch ∈ e.toList, isJsSpace ch = true) → isValidEmail e = false) ∧
    consumeActions [cusFiveLeft] 3 "A@X.Com" 1 =
      ([{ cusFiveLeft with
            free_actions_remaining := some 4
            last_action_at := some 3 }],
       ConsumeResult.ok false 4) := by
  have hws : ∀ e : String, (∃ ch ∈ e.toList, isJsSpace ch = true) →
      isValidEmail e = false := by
    rintro e ⟨ch, hch, hsp⟩
    by_contra hne
    rw [Bool.not_eq_false] at hne
    rw [isValidEmail_no_space hne ch hch] at hsp
    cases hsp
  by_cases he : email = ""
  · subst he
    refine ⟨⟨"Email required", by simp [checkAction]⟩,
      ⟨"Email required", by simp [consumeActions]⟩,
      ⟨"Email required", by simp [unsubscribe]⟩,
      ⟨"Missing data", by simp [linkEmail]⟩,
      ⟨"Email required", by simp [resolveCustomer]⟩,
      ⟨"Email required", by simp [actionStatus]⟩, hws, by decide⟩
  · refine ⟨⟨"Invalid email format", ?_⟩, ⟨"Invalid email format", ?_⟩,
      ⟨"Invalid email format", ?_⟩, ?_, ⟨"Invalid email format", ?_⟩,
      ⟨"Invalid email format", ?_⟩, hws, by decide⟩
    · unfold checkAction; rw [if_neg he]; simp [hv]
    · unfold consumeActions; rw [if_neg he]; simp [hv]
    · unfold unsubscribe; rw [if_neg he]; simp [hv]
    · by_cases hc : cid = ""
      · exact ⟨"Missing data", by subst hc; simp [linkEmail]⟩
      · by_cases hl : cid.length > 100
        · refine ⟨"Invalid customer_id", ?_⟩
          unfold linkEmail
          simp [hc, he, hl]
        · refine ⟨"Invalid email format", ?_⟩
          unfold linkEmail
          simp [hc, he, hl, hv]
    · unfold resolveCustomer; rw [if_neg he]; simp [hv]
    · unfold actionStatus; rw [if_neg he]; simp [hv]

/-- Instance of `email_validation_and_lowercase` at the malformed email
`"bad email"`. -/
theorem email_validation_and_lowercase_witness :
    (∃ m, checkAction [] 0 "cus_1" "bad email" 1 = ([], CheckResult.err 400 m)) ∧
    (∃ m, consumeActions [] 0 "bad email" 1 = ([], ConsumeResult.err 400 m)) ∧
    (∃ m, unsubscribe [] "bad email" ListOutcome.missing =
      ([], UnsubResult.err 400 m)) ∧
    (∃ m, linkEmail [] "cus_1" "bad email" = ([], LinkResult.err 400 m)) ∧
    (∃ m, resolveCustomer [] "bad email" = ([], ResolveResult.err 400 m)) ∧
    (∃ m, actionStatus [] "bad email" = ([], StatusResult.err 400 m)) ∧
    (∀ e : String, (∃ ch ∈ e.toList, isJsSpace ch = true) → isValidEmail e = false) ∧
    consumeActions [cusFiveLeft] 3 "A@X.Com" 1 =
      ([{ cusFiveLeft with
            free_actions_remaining := some 4
            last_action_at := some 3 }],
       ConsumeResult.ok false 4) :=
  email_validation_and_lowercase [] "bad email" "cus_1" "cus_1" 1
    ListOutcome.missing 0 (by decide)

/-- C10 — `/consume-actions` validates nothing about `action_count`: for an
existing non-subscribed customer every integer count (zero and negatives
included) yields a success response, and a negative count `k` strictly
inflates the counter — the stored and returned value is
`freeOr c - k > freeOr c`, since `max 0 (n - k) = n - k` when `n ≥ 0` and
`k < 0`. -/
theorem consume_actions_unvalidated_count (store : List Customer) (now : Nat)
    (email : String) (c : Customer)
    (he : ¬ email = "") (hv : isValidEmail email = true)
    (hf : findOneByEmail store (toLowerCase email) = some c)
    (hs : c.subscription_status = false) (hn : 0 ≤ freeOr c) :
    (∀ k : Int, ∃ b m, (consumeActions store now email k).snd = ConsumeResult.ok b m) ∧
    (∀ k : Int, k < 0 →
      consumeActions store now email k =
        (updateFirst (fun d => d.customer_id == c.customer_id)
           (fun d => { d with
               free_actions_remaining := some (freeOr c - k)
               last_action_at := some now }) store,
         ConsumeResult.ok false (freeOr c - k)) ∧
      freeOr c < freeOr c - k) := by
  have hbase : ∀ k : Int, consumeActions store now email k =
      (updateFirst (fun d => d.customer_id == c.customer_id)
         (fun d => { d with
             free_actions_remaining := some (max 0 (freeOr c - k))
             last_action_at := some now }) store,
       ConsumeResult.ok false (max 0 (freeOr c - k))) := by
    intro k
    unfold consumeActions
    rw [if_neg he]
    simp only [hv, Bool.not_true, Bool.false_eq_true, if_false, hf, hs]
  constructor
  · intro k
    exact ⟨false, max 0 (freeOr c - k), by rw [hbase k]⟩
  · intro k hk
    have hmax : max 0 (freeOr c - k) = freeOr c - k := max_eq_right (by omega)
    refine ⟨?_, by omega⟩
    rw [hbase k, hmax]

/-- Instance of `consume_actions_unvalidated_count` on the customer holding
5 free actions. -/
theorem consume_actions_unvalidated_count_witness :
    (∀ k : Int, ∃ b m, (consumeActions [cusFiveLeft] 0 "a@x.com" k).snd =
      ConsumeResult.ok b m) ∧
    (∀ k : Int, k < 0 →
      consumeActions [cusFiveLeft] 0 "a@x.com" k =
        (updateFirst (fun d => d.customer_id == cusFiveLeft.customer_id)
           (fun d => { d with
               free_actions_remaining := some (freeOr cusFiveLeft - k)
               last_action_at := some 0 }) [cusFiveLeft],
         ConsumeResult.ok false (freeOr cusFiveLeft - k)) ∧
      freeOr cusFiveLeft < freeOr cusFiveLeft - k) :=
  consume_actions_unvalidated_count [cusFiveLeft] 0 "a@x.com" cusFiveLeft
    (by decide) (by decide) (by decide) rfl (by decide)
